import Mathlib

/-!
Shallow embedding of the resume parsing and ATS scoring core
(`utils/resume_parser.py` of the R.E.A.D.M.L. repository).

Pure Python string manipulation is translated directly; calls into
external libraries (spaCy, scikit-learn, pdfplumber, PyPDF2, python-docx,
Streamlit) are modelled as explicit oracle inputs carrying exactly the
values the library calls return (or `none` / `Except.error` when they
raise), so that the repository's own control flow and arithmetic are the
only things under verification.
-/

/-- Python `str.strip()`: remove leading and trailing whitespace. -/
def pyStrip (s : String) : String :=
  (((s.toList.dropWhile Char.isWhitespace).reverse.dropWhile Char.isWhitespace).reverse).asString

/-- Python `str.lower()` (ASCII case folding, as in the resume texts). -/
def pyLower (s : String) : String := (s.toList.map Char.toLower).asString

def listIsInfix (needle : List Char) : List Char → Bool
  | [] => needle.isEmpty
  | c :: rest => needle.isPrefixOf (c :: rest) || listIsInfix needle rest

/-- Python `needle in hay` substring test on strings. -/
def containsSub (hay needle : String) : Bool := listIsInfix needle.toList hay.toList

def splitPredAux (p : Char → Bool) : List Char → List Char → List String
  | [], cur => [cur.reverse.asString]
  | c :: cs, cur =>
    if p c then cur.reverse.asString :: splitPredAux p cs []
    else splitPredAux p cs (c :: cur)

/-- Python `s.split(ch)`: split at every separator, keeping empty pieces. -/
def pySplitChar (s : String) (ch : Char) : List String :=
  splitPredAux (fun c => c == ch) s.toList []

/-- Python `sep.join(parts)`. -/
def pyJoin (sep : String) : List String → String
  | [] => ""
  | x :: xs => xs.foldl (fun acc y => acc ++ sep ++ y) x

/-- Python `s.split()` with no argument: split on whitespace runs, dropping empties. -/
def pyWords (s : String) : List String :=
  (splitPredAux Char.isWhitespace s.toList []).filter (fun w => w ≠ "")

/-- Python `len(s.split())`. -/
def wordCount (s : String) : Nat := (pyWords s).length

/-- A Python `dict` (string keys) as an insertion-ordered association list. -/
def hasKey {α : Type} (m : List (String × α)) (k : String) : Bool :=
  m.any (fun kv => kv.1 == k)

/-- Python `d[k] = v`: replace in place when the key exists, else append. -/
def dictInsert {α : Type} (k : String) (v : α) (m : List (String × α)) : List (String × α) :=
  if hasKey m k then m.map (fun kv => if kv.1 == k then (k, v) else kv)
  else m ++ [(k, v)]

/-- Python `d.get(k)` / `k in d` membership on a dict. -/
def pyGet {α : Type} (m : List (String × α)) (k : String) : Option α :=
  (m.find? (fun kv => kv.1 == k)).map Prod.snd

/-- `self.SECTIONS`: the section-header vocabulary. -/
def SECTIONS : List String :=
  ["education", "experience", "skills", "projects",
   "certifications", "summary", "objective", "work history",
   "professional experience", "technical skills", "achievements",
   "publications", "languages", "interests", "volunteer"]

/-- A line (already stripped and lower-cased) is a section header when it
contains any lexicon section name as a substring. -/
def isHeader (lineLower : String) : Bool :=
  SECTIONS.any (fun s => containsSub lineLower s)

/-- `self.SKILLS_DB`: the categorized skills lexicon. -/
def SKILLS_DB : List (String × List String) :=
  [("programming_languages",
    ["python", "java", "javascript", "typescript", "c++", "c#", "ruby", "php",
     "swift", "kotlin", "go", "rust", "scala", "perl", "r", "matlab"]),
   ("frameworks",
    ["react", "angular", "vue.js", "django", "flask", "spring", "express",
     "node.js", "next.js", "nuxt.js", "flutter", "tensorflow", "pytorch"]),
   ("databases",
    ["mysql", "postgresql", "mongodb", "redis", "elasticsearch", "cassandra",
     "oracle", "sql server", "dynamodb", "firebase"]),
   ("cloud_devops",
    ["aws", "azure", "gcp", "docker", "kubernetes", "jenkins", "terraform",
     "ansible", "circleci", "github actions", "gitlab ci"]),
   ("ai_ml",
    ["machine learning", "deep learning", "nlp", "computer vision",
     "data science", "neural networks", "reinforcement learning",
     "statistical analysis", "big data", "data mining"])]

/-- `self.ALL_SKILLS`: the flattened skills lexicon. -/
def ALL_SKILLS : List String := (SKILLS_DB.map Prod.snd).flatten

/-- The scorer's categorized skill detection: per category, every lexicon
term occurring as a substring of the lower-cased text. -/
def skillsByCategory (text : String) : List (String × List String) :=
  SKILLS_DB.map (fun c => (c.1, c.2.filter (fun skill => containsSub (pyLower text) skill)))

/-- The line loop of `extract_sections`: accumulate stripped non-blank
lines under the current section key, flushing on each header line. -/
def segLoop : List String → String → List String → List (String × String) → List (String × String)
  | [], cur, acc, secs =>
    if acc.isEmpty then secs else dictInsert cur (pyJoin "\n" acc) secs
  | line :: rest, cur, acc, secs =>
    if pyStrip line = "" then segLoop rest cur acc secs
    else if isHeader (pyLower (pyStrip line)) then
      segLoop rest (pyLower (pyStrip line)) []
        (if acc.isEmpty then secs else dictInsert cur (pyJoin "\n" acc) secs)
    else segLoop rest cur (acc ++ [pyStrip line]) secs

/-- The segmentation part of `extract_sections` (before degree mining). -/
def segOnly (text : String) : List (String × String) :=
  segLoop (pySplitChar text '\n') "unknown" [] []

/-- A single-quote character as a string (for the lexicon entries that use one). -/
def sglq : String := String.singleton (Char.ofNat 39)

/-- First degree regex, flattened into the alternative literals in exactly
the order a backtracking engine tries them at one position (alternation
order, greedy optional dots). -/
def degreePat1 : List String :=
  ["bachelor", "master", "phd", "doctorate",
   "b.s.", "b.s", "bs.", "bs",
   "b.a.", "b.a", "ba.", "ba",
   "m.s.", "m.s", "ms.", "ms",
   "m.a.", "m.a", "ma.", "ma",
   "ph.d.", "ph.d", "phd.", "phd",
   "b.tech", "btech",
   "m.tech", "mtech"]

/-- Second degree regex: the possessive degree words. -/
def degreePat2 : List String := ["bachelor" ++ sglq ++ "s", "master" ++ sglq ++ "s"]

/-- Third degree regex: the degree phrases. -/
def degreePat3 : List String := ["degree in", "major in"]

/-- `re.finditer` first match: scan positions left to right, trying the
flattened alternatives in order; return the span `(start, stop)`. -/
def findMatchAux (alts : List String) : List Char → Nat → Option (Nat × Nat)
  | [], _ => none
  | c :: rest, i =>
    match alts.findSome? (fun a =>
        if a.toList.isPrefixOf (c :: rest) then some a.length else none) with
    | some len => some (i, i + len)
    | none => findMatchAux alts rest (i + 1)

/-- `max(0, education_text.rfind(".", 0, s) + 1)`. -/
def sentStart (cs : List Char) (s : Nat) : Nat :=
  match (cs.take s).reverse.findIdx? (fun c => c == '.') with
  | none => 0
  | some r => s - r

/-- `education_text.find(".", e)`, with `-1` replaced by the length. -/
def sentEnd (cs : List Char) (e : Nat) : Nat :=
  match (cs.drop e).findIdx? (fun c => c == '.') with
  | none => cs.length
  | some r => e + r

/-- For one pattern: the first match expanded to the period-delimited
sentence span, stripped. -/
def tryPattern (alts : List String) (cs : List Char) : Option String :=
  (findMatchAux alts cs 0).map (fun se =>
    pyStrip (((cs.drop (sentStart cs se.1)).take (sentEnd cs se.2 - sentStart cs se.1)).asString))

/-- The degree-mining loop over the three patterns in priority order; a
pattern whose extracted span strips to the empty (falsy) string is skipped. -/
def degreeInfo (edu : String) : Option String :=
  [degreePat1, degreePat2, degreePat3].findSome? (fun alts =>
    match tryPattern alts edu.toList with
    | some d => if d = "" then none else some d
    | none => none)

/-- `extract_sections`: segmentation, then degree mining guarded by
`"education" in sections` (exact key membership). -/
def extract_sections (text : String) : List (String × String) :=
  match pyGet (segOnly text) "education" with
  | none => segOnly text
  | some edu =>
    match degreeInfo (pyLower edu) with
    | none => segOnly text
    | some d => dictInsert "degree" d (segOnly text)

example : segOnly "skills\npython" = [("skills", "python")] := by decide
example : extract_sections "education\nbs in cs" =
    [("education", "bs in cs"), ("degree", "bs in cs")] := by decide
example : extract_sections "education history\nbs in computer science" =
    [("education history", "bs in computer science")] := by decide

/-- Oracle for the external library calls made while scoring and parsing:
`sentCount` is `len(list(doc.sents))` and `tokens` the token texts of
`nlp(text.lower())`; `nounChunks` the noun-phrase texts of the same doc;
`jdKeyTerms` the non-stopword non-punctuation token texts of
`nlp(job_description.lower())`; `simResult` the TF-IDF cosine similarity
(or `none` when `fit_transform` / the product raises); `simErrMsg` the
`str(e)` of that exception; `pySetOrder` the process's iteration order of
`set(key_terms)` (hash order), producing the distinct elements. -/
structure NlpEnv where
  sentCount : Nat
  tokens : List String
  nounChunks : List String
  jdKeyTerms : List String
  simResult : Option ℚ
  simErrMsg : String
  pySetOrder : List String → List String

/-- The `scores` dict built by `calculate_ats_score`. -/
structure ScoreRecord where
  format_score : ℤ
  content_score : ℤ
  skills_score : ℤ
  keyword_score : ℤ
  relevance_score : ℤ
  total_score : ℤ
  feedback : List String
  detected_skills : List (String × List String)
deriving DecidableEq

/-- Python `int(q)`: truncation toward zero. -/
def pyInt (q : ℚ) : ℤ := if q < 0 then -⌊-q⌋ else ⌊q⌋

/-- Lines whose stripped, lower-cased text is exactly a lexicon section
name (the format sub-score's stricter whole-line header test). -/
def sectionHeaderCount (text : String) : Nat :=
  ((pySplitChar text '\n').filter (fun line => SECTIONS.contains (pyLower (pyStrip line)))).length

/-- The fixed action-verb list of the content sub-score. -/
def actionVerbs : List String :=
  ["developed", "implemented", "created", "managed", "led",
   "designed", "improved", "increased", "reduced", "achieved"]

/-- Tokens of the doc whose lower-cased text is an action verb. -/
def verbCount (env : NlpEnv) : Nat :=
  (env.tokens.filter (fun t => actionVerbs.contains (pyLower t))).length

/-- Search for a digit directly followed by the literal tail (the
backtracking content of the patterns digits-percent, digits-space-years,
digits-plus); the tail is compared case-insensitively (`re.IGNORECASE`). -/
def hasDigitThenLit (lit : List Char) : List Char → Bool
  | [] => false
  | c :: rest => (c.isDigit && lit.isPrefixOf (rest.map Char.toLower)) || hasDigitThenLit lit rest

/-- Search for a dollar sign directly followed by a digit. -/
def hasDollarDigit : List Char → Bool
  | [] => false
  | c :: rest =>
    (c == '$' && (match rest with | d :: _ => d.isDigit | [] => false)) || hasDollarDigit rest

/-- How many of the four metric patterns have at least one match in the text. -/
def metricsCount (text : String) : Nat :=
  [hasDigitThenLit ['%'] text.toList, hasDollarDigit text.toList,
   hasDigitThenLit (" years".toList) text.toList,
   hasDigitThenLit ['+'] text.toList].count true

/-- Format sub-score block (max 20) with its feedback lines, in rule order. -/
def formatBlock (text : String) (env : NlpEnv) : ℤ × List String :=
  (max 0 (20 - (if (extract_sections text).length < 4 then 5 else 0)
            - (if env.sentCount < 10 then 5 else 0)
            - (if sectionHeaderCount text < 4 then 5 else 0)),
   (if (extract_sections text).length < 4 then
      ["Missing key sections - add more sections to your resume"] else [])
   ++ (if env.sentCount < 10 then
      ["Content is too brief - add more detailed descriptions"] else [])
   ++ (if sectionHeaderCount text < 4 then
      ["Use clear section headers to organize your resume"] else []))

/-- Content sub-score block (max 30) with its feedback lines. -/
def contentBlock (text : String) (env : NlpEnv) : ℤ × List String :=
  (max 0 (30 - (if wordCount text < 300 then 10 else if wordCount text > 1000 then 5 else 0)
            - (if verbCount env < 5 then 10 else 0)
            - (if metricsCount text < 3 then 5 else 0)),
   (if wordCount text < 300 then ["Resume is too short - aim for 300-700 words"]
    else if wordCount text > 1000 then ["Resume might be too long - consider condensing"] else [])
   ++ (if verbCount env < 5 then ["Use more action verbs to describe your experiences"] else [])
   ++ (if metricsCount text < 3 then ["Add more quantifiable achievements and metrics"] else []))

/-- Total number of detected skills across the categories. -/
def totalSkills (text : String) : Nat :=
  ((skillsByCategory text).map (fun kv => kv.2.length)).sum

/-- `any(skills_by_category[cat] for cat in [programming_languages, frameworks])`. -/
def hasCoreSkills (text : String) : Bool :=
  ["programming_languages", "frameworks"].any
    (fun c => !((pyGet (skillsByCategory text) c).getD []).isEmpty)

/-- Skills sub-score block (max 25) with its feedback lines. -/
def skillsBlock (text : String) : ℤ × List String :=
  (max 0 (25 - (if totalSkills text < 5 then 15 else if totalSkills text < 10 then 10 else 0)
            - (if hasCoreSkills text then 0 else 5)),
   (if totalSkills text < 5 then ["Add more technical skills relevant to your field"]
    else if totalSkills text < 10 then ["Consider adding more diverse technical skills"] else [])
   ++ (if hasCoreSkills text then []
       else ["Add core technical skills (programming languages/frameworks)"]))

/-- The `st.warning` message of the keyword-analysis `except` branch. -/
def kwWarnMsg (e : String) : String := "Error in keyword analysis: " ++ e

/-- Job-description key terms absent from the lower-cased text and longer
than 3 characters, in the set-iteration order of this process. -/
def missingTerms (text : String) (env : NlpEnv) : List String :=
  (env.pySetOrder env.jdKeyTerms).filter
    (fun t => !containsSub (pyLower text) t && decide (3 < t.length))

/-- Keyword sub-score block (max 25): the score, the feedback lines it
appends to the record, and the `st.warning` messages it emits. -/
def keywordBlock (text : String) (jd : Option String) (env : NlpEnv) :
    ℤ × List String × List String :=
  match jd with
  | none => (max 0 25, [], [])
  | some j =>
    if j = "" then (max 0 25, [], [])
    else
      match env.simResult with
      | none => (max 0 15, [], [kwWarnMsg env.simErrMsg])
      | some sim =>
        (max 0 (pyInt (sim * 25)),
         (if missingTerms text env = [] then []
          else ["Consider adding these keywords: " ++ pyJoin ", " ((missingTerms text env).take 5)])
         ++ (if sim < 3 / 10 then
              ["Resume doesn" ++ sglq ++ "t match job description well - tailor it more"] else []),
         [])

/-- `calculate_ats_score`: the returned `scores` dict paired with the
`st.warning` messages emitted while computing it. -/
def calculate_ats_score (text : String) (jd : Option String) (env : NlpEnv) :
    ScoreRecord × List String :=
  let F := formatBlock text env
  let C := contentBlock text env
  let S := skillsBlock text
  let K := keywordBlock text jd env
  let total := F.1 + C.1 + S.1 + K.1
  let fb1 := F.2 ++ C.2 ++ S.2 ++ K.2.1
  let fb2 := if total < 70 then
      fb1 ++ ["Consider professional resume review for major improvements"] else fb1
  let fb3 := if total < 50 then
      fb2 ++ ["Significant improvements needed in content and formatting"] else fb2
  ({ format_score := F.1, content_score := C.1, skills_score := S.1, keyword_score := K.1,
     relevance_score := 0, total_score := total, feedback := fb3,
     detected_skills := skillsByCategory text }, K.2.2)

/-- The `st.error` message of the unsupported-extension branch. -/
def unsupportedMsg : String := "Unsupported file format. Please upload PDF or DOCX files."

/-- The `st.error` message head of a PDF extraction failure. -/
def pdfErrPre : String := "Error extracting text from PDF: "

/-- The `st.error` message head of a DOCX extraction failure. -/
def docxErrPre : String := "Error extracting text from DOCX: "

/-- `extract_text_from_pdf`: `p1` is the pdfplumber outcome (accumulated
page text, or the exception text), `p2` the PyPDF2 outcome; both
strategies sit inside one `try`, so a raise anywhere lands in the single
`except` that returns the empty string. Returns the text and the
`st.error` messages emitted. -/
def extract_text_from_pdf (p1 p2 : Except String String) : String × List String :=
  match p1 with
  | Except.error e => ("", [pdfErrPre ++ e])
  | Except.ok t =>
    if pyStrip t = "" then
      match p2 with
      | Except.error e => ("", [pdfErrPre ++ e])
      | Except.ok t2 => (t2, [])
    else (t, [])

/-- `extract_text_from_docx`: paragraph concatenation outcome or exception. -/
def extract_text_from_docx (d : Except String String) : String × List String :=
  match d with
  | Except.error e => ("", [docxErrPre ++ e])
  | Except.ok t => (t, [])

/-- `extract_text`: dispatch on the lower-cased `Path(file.name).suffix`. -/
def extract_text (suffix : String) (p1 p2 d : Except String String) : String × List String :=
  if pyLower suffix = ".pdf" then extract_text_from_pdf p1 p2
  else if pyLower suffix = ".docx" ∨ pyLower suffix = ".doc" then extract_text_from_docx d
  else ("", [unsupportedMsg])

/-- `extract_skills`: token and noun-phrase texts (of the lower-cased doc,
supplied by the oracle) that are lexicon entries; the Python set is
modelled as the deduplicated list. -/
def extract_skills (env : NlpEnv) : List String :=
  ((env.tokens.filter (fun t => ALL_SKILLS.contains t))
    ++ (env.nounChunks.filter (fun p => ALL_SKILLS.contains p))).dedup

/-- The record `get_parsed_data` returns. -/
structure ParsedData where
  full_text : String
  sections : List (String × String)
  skills : List String
  word_count : Nat
  scores : ScoreRecord
deriving DecidableEq

/-- `get_parsed_data`: extraction, null on empty text, else segmentation,
flat skills, word count and scoring with no job description. -/
def get_parsed_data (suffix : String) (p1 p2 d : Except String String) (env : NlpEnv) :
    Option ParsedData :=
  if (extract_text suffix p1 p2 d).1 = "" then none
  else some { full_text := (extract_text suffix p1 p2 d).1,
              sections := extract_sections (extract_text suffix p1 p2 d).1,
              skills := extract_skills env,
              word_count := wordCount (extract_text suffix p1 p2 d).1,
              scores := (calculate_ats_score (extract_text suffix p1 p2 d).1 none env).1 }

/-- A concrete oracle whose similarity computation raises. -/
def envNone : NlpEnv :=
  { sentCount := 0, tokens := [], nounChunks := [], jdKeyTerms := [],
    simResult := none, simErrMsg := "empty vocabulary", pySetOrder := fun l => l }

/-- The parsed record of the one-word upload used in the C7 witness. -/
def sampleParsed : ParsedData :=
  { full_text := "x", sections := extract_sections "x", skills := extract_skills envNone,
    word_count := wordCount "x", scores := (calculate_ats_score "x" none envNone).1 }

/-- Discriminator separating extraction-failure messages (which start with
the word Error) from the unsupported-format message. -/
def errDiscr (s : String) : Bool := "Error".toList.isPrefixOf s.toList

/-- Discriminator recognizing the keyword-analysis warning messages. -/
def kwHead (s : String) : Bool := "Error in keyword analysis: ".toList.isPrefixOf s.toList

/-- The segmentation loop with each section's value kept as its list of
accumulated lines (joined only at the end); used to state which lines end
up in which section's content. -/
def segLoopB : List String → String → List String → List (String × List String) →
    List (String × List String)
  | [], cur, acc, secs =>
    if acc.isEmpty then secs else dictInsert cur acc secs
  | line :: rest, cur, acc, secs =>
    if pyStrip line = "" then segLoopB rest cur acc secs
    else if isHeader (pyLower (pyStrip line)) then
      segLoopB rest (pyLower (pyStrip line)) []
        (if acc.isEmpty then secs else dictInsert cur acc secs)
    else segLoopB rest cur (acc ++ [pyStrip line]) secs

/-- `segOnly` with contents kept as line lists. -/
def segBlocks (text : String) : List (String × List String) :=
  segLoopB (pySplitChar text '\n') "unknown" [] []

/-- Join each section's line list with newlines. -/
def mapJoin (m : List (String × List String)) : List (String × String) :=
  m.map (fun kv => (kv.1, pyJoin "\n" kv.2))

/-- The sequence of section keys the loop flushes into the dict, in flush
order (`hasAcc` says whether the current accumulator is non-empty). -/
def flushKeys : List String → String → Bool → List String
  | [], cur, hasAcc => if hasAcc then [cur] else []
  | line :: rest, cur, hasAcc =>
    if pyStrip line = "" then flushKeys rest cur hasAcc
    else if isHeader (pyLower (pyStrip line)) then
      (if hasAcc then cur :: flushKeys rest (pyLower (pyStrip line)) false
       else flushKeys rest (pyLower (pyStrip line)) false)
    else flushKeys rest cur true

/-- The stripped non-blank non-header lines, in input order. -/
def cleanLines (lines : List String) : List String :=
  lines.filterMap (fun line =>
    if pyStrip line = "" then none
    else if isHeader (pyLower (pyStrip line)) then none
    else some (pyStrip line))

/-- Concatenation of all sections' content lines, in dict order. -/
def contentsOf (m : List (String × List String)) : List String :=
  (m.map Prod.snd).flatten

theorem dictInsert_of_hasKey_eq_false {α : Type} (k : String) (v : α)
    (m : List (String × α)) (h : hasKey m k = false) :
    dictInsert k v m = m ++ [(k, v)] := by
  simp [dictInsert, h]

theorem hasKey_append_single {α : Type} (m : List (String × α)) (k0 k : String) (v0 : α) :
    hasKey (m ++ [(k0, v0)]) k = (hasKey m k || (k0 == k)) := by
  simp [hasKey, List.any_append]

theorem contentsOf_append (m l : List (String × List String)) :
    contentsOf (m ++ l) = contentsOf m ++ contentsOf l := by
  simp [contentsOf]

theorem hasKey_mapJoin (m : List (String × List String)) (k : String) :
    hasKey (mapJoin m) k = hasKey m k := by
  induction m with
  | nil => rfl
  | cons kv t ih => simp only [hasKey, mapJoin, List.map_cons, List.any_cons] at ih ⊢; rw [ih]

theorem mapJoin_dictInsert (k : String) (v : List String) (m : List (String × List String)) :
    dictInsert k (pyJoin "\n" v) (mapJoin m) = mapJoin (dictInsert k v m) := by
  unfold dictInsert
  rw [hasKey_mapJoin]
  by_cases h : hasKey m k = true
  · simp only [h, if_true]
    simp only [mapJoin, List.map_map]
    apply List.map_congr_left
    intro kv _
    by_cases hk : (kv.1 == k) = true <;> simp [hk, Function.comp]
  · have h' : hasKey m k = false := by simpa using h
    simp [h', mapJoin]

theorem segLoop_eq_mapJoin (lines : List String) :
    ∀ (cur : String) (acc : List String) (secs : List (String × List String)),
    segLoop lines cur acc (mapJoin secs) = mapJoin (segLoopB lines cur acc secs) := by
  induction lines with
  | nil =>
    intro cur acc secs
    by_cases ha : acc.isEmpty <;> simp [segLoop, segLoopB, ha, mapJoin_dictInsert]
  | cons line rest ih =>
    intro cur acc secs
    by_cases hb : pyStrip line = ""
    · simp [segLoop, segLoopB, hb, ih]
    · by_cases hh : isHeader (pyLower (pyStrip line))
      · by_cases ha : acc.isEmpty <;>
          simp [segLoop, segLoopB, hb, hh, ha, mapJoin_dictInsert, ih]
      · simp [segLoop, segLoopB, hb, hh, ih]

theorem segLoopB_coverage (lines : List String) :
    ∀ (cur : String) (acc : List String) (secs : List (String × List String)),
    (flushKeys lines cur (!acc.isEmpty)).Nodup →
    (∀ k ∈ flushKeys lines cur (!acc.isEmpty), hasKey secs k = false) →
    contentsOf (segLoopB lines cur acc secs) = contentsOf secs ++ acc ++ cleanLines lines := by
  induction lines with
  | nil =>
    intro cur acc secs hnd hfresh
    cases acc with
    | nil => simp [segLoopB, cleanLines, contentsOf]
    | cons a as =>
      have hcur : hasKey secs cur = false := hfresh cur (by simp [flushKeys])
      simp only [segLoopB, List.isEmpty_cons, Bool.false_eq_true, if_neg, ite_false,
        cleanLines, List.filterMap_nil, List.append_nil,
        dictInsert_of_hasKey_eq_false cur (a :: as) secs hcur, contentsOf_append]
      simp [contentsOf]
  | cons line rest ih =>
    intro cur acc secs hnd hfresh
    by_cases hb : pyStrip line = ""
    · have e2 : flushKeys (line :: rest) cur (!acc.isEmpty) =
          flushKeys rest cur (!acc.isEmpty) := by simp [flushKeys, hb]
      have e3 : cleanLines (line :: rest) = cleanLines rest := by simp [cleanLines, hb]
      have e1 : segLoopB (line :: rest) cur acc secs = segLoopB rest cur acc secs := by
        simp [segLoopB, hb]
      rw [e1, e3]
      exact ih cur acc secs (e2 ▸ hnd) (fun k hk => hfresh k (e2 ▸ hk))
    · by_cases hh : isHeader (pyLower (pyStrip line)) = true
      · have e3 : cleanLines (line :: rest) = cleanLines rest := by simp [cleanLines, hb, hh]
        cases acc with
        | nil =>
          have e1 : segLoopB (line :: rest) cur [] secs =
              segLoopB rest (pyLower (pyStrip line)) [] secs := by simp [segLoopB, hb, hh]
          have e2 : flushKeys (line :: rest) cur (!([] : List String).isEmpty) =
              flushKeys rest (pyLower (pyStrip line)) false := by simp [flushKeys, hb, hh]
          rw [e1, e3]
          exact ih (pyLower (pyStrip line)) [] secs (e2 ▸ hnd) (fun k hk => hfresh k (e2 ▸ hk))
        | cons a as =>
          have e2 : flushKeys (line :: rest) cur (!(a :: as).isEmpty) =
              cur :: flushKeys rest (pyLower (pyStrip line)) false := by
            simp [flushKeys, hb, hh]
          rw [e2] at hnd hfresh
          have hcur : hasKey secs cur = false := hfresh cur (List.mem_cons_self cur _)
          have hnodup := List.nodup_cons.mp hnd
          have e1 : segLoopB (line :: rest) cur (a :: as) secs =
              segLoopB rest (pyLower (pyStrip line)) []
                (secs ++ [(cur, a :: as)]) := by
            simp [segLoopB, hb, hh, dictInsert_of_hasKey_eq_false cur (a :: as) secs hcur]
          have hfresh' : ∀ k ∈ flushKeys rest (pyLower (pyStrip line)) false,
              hasKey (secs ++ [(cur, a :: as)]) k = false := by
            intro k hk
            rw [hasKey_append_single]
            have h1 := hfresh k (List.mem_cons_of_mem _ hk)
            have h2 : (cur == k) = false := by
              have : cur ≠ k := fun hek => hnodup.1 (hek ▸ hk)
              simpa using this
            simp [h1, h2]
          have := ih (pyLower (pyStrip line)) [] (secs ++ [(cur, a :: as)]) hnodup.2 hfresh'
          rw [e1, e3, this, contentsOf_append]
          simp [contentsOf]
      · have e1 : segLoopB (line :: rest) cur acc secs =
            segLoopB rest cur (acc ++ [pyStrip line]) secs := by simp [segLoopB, hb, hh]
        have e2 : flushKeys (line :: rest) cur (!acc.isEmpty) = flushKeys rest cur true := by
          simp [flushKeys, hb, hh]
        have e3 : cleanLines (line :: rest) = pyStrip line :: cleanLines rest := by
          simp [cleanLines, hb, hh]
        rw [e2] at hnd hfresh
        have hbe : (!(acc ++ [pyStrip line]).isEmpty) = true := by cases acc <;> rfl
        have hnd' : (flushKeys rest cur (!(acc ++ [pyStrip line]).isEmpty)).Nodup := by
          rw [hbe]; exact hnd
        have hfresh' : ∀ k ∈ flushKeys rest cur (!(acc ++ [pyStrip line]).isEmpty),
            hasKey secs k = false := by rw [hbe]; exact hfresh
        rw [e1, e3, ih cur (acc ++ [pyStrip line]) secs hnd' hfresh']
        simp

theorem dictInsert_mem {α : Type} (k : String) (v : α) (m : List (String × α)) :
    ∀ kv ∈ dictInsert k v m, kv.1 = k ∨ kv ∈ m := by
  intro kv hkv
  unfold dictInsert at hkv
  split at hkv
  · rcases List.mem_map.mp hkv with ⟨kv0, hm, heq⟩
    by_cases hk : (kv0.1 == k) = true
    · rw [if_pos hk] at heq
      left; rw [← heq]
    · rw [if_neg hk] at heq
      right; rw [← heq]; exact hm
  · rcases List.mem_append.mp hkv with h | h
    · right; exact h
    · left
      have : kv = (k, v) := by simpa using h
      rw [this]

theorem segLoop_key_pred (lines : List String) :
    ∀ (cur : String) (acc : List String) (secs : List (String × String)),
    (∀ kv ∈ secs, kv.1 = "unknown" ∨ isHeader kv.1 = true) →
    (cur = "unknown" ∨ isHeader cur = true) →
    ∀ kv ∈ segLoop lines cur acc secs, kv.1 = "unknown" ∨ isHeader kv.1 = true := by
  induction lines with
  | nil =>
    intro cur acc secs hsecs hcur kv hkv
    by_cases ha : acc.isEmpty
    · rw [segLoop, if_pos ha] at hkv
      exact hsecs kv hkv
    · rw [segLoop, if_neg ha] at hkv
      rcases dictInsert_mem _ _ _ kv hkv with h | h
      · rw [h]; exact hcur
      · exact hsecs kv h
  | cons line rest ih =>
    intro cur acc secs hsecs hcur kv hkv
    by_cases hb : pyStrip line = ""
    · rw [segLoop, if_pos hb] at hkv
      exact ih cur acc secs hsecs hcur kv hkv
    · by_cases hh : isHeader (pyLower (pyStrip line)) = true
      · rw [segLoop, if_neg hb, if_pos hh] at hkv
        refine ih (pyLower (pyStrip line)) []
          (if acc.isEmpty then secs else dictInsert cur (pyJoin "\n" acc) secs)
          ?_ (Or.inr hh) kv hkv
        by_cases ha : acc.isEmpty
        · rw [if_pos ha]; exact hsecs
        · rw [if_neg ha]
          intro kv' hkv'
          rcases dictInsert_mem _ _ _ kv' hkv' with h | h
          · rw [h]; exact hcur
          · exact hsecs kv' h
      · rw [segLoop, if_neg hb, if_neg hh] at hkv
        exact ih cur (acc ++ [pyStrip line]) secs hsecs hcur kv hkv

theorem segOnly_no_degree (text : String) : pyGet (segOnly text) "degree" = none := by
  unfold pyGet
  have hf : (segOnly text).find? (fun kv => kv.1 == "degree") = none := by
    rw [List.find?_eq_none]
    intro kv hkv hpk
    have hp := segLoop_key_pred (pySplitChar text '\n') "unknown" [] []
      (by intro kv' h; cases h) (Or.inl rfl) kv hkv
    have : kv.1 = "degree" := by simpa using hpk
    rw [this] at hp
    rcases hp with h | h
    · exact absurd h (by decide)
    · exact absurd h (by decide)
  rw [hf]; rfl

theorem pyGet_none_hasKey {α : Type} (m : List (String × α)) (k : String)
    (h : pyGet m k = none) : hasKey m k = false := by
  induction m with
  | nil => rfl
  | cons a t ih =>
    unfold pyGet at h ih
    rw [List.find?_cons] at h
    cases hp : (a.1 == k) with
    | true => rw [hp] at h; simp at h
    | false =>
      rw [hp] at h
      have := ih h
      simp only [hasKey, List.any_cons] at this ⊢
      simp [hp, this]

theorem pyGet_append_self {α : Type} (m : List (String × α)) (k : String) (v : α)
    (h : pyGet m k = none) : pyGet (m ++ [(k, v)]) k = some v := by
  induction m with
  | nil => simp [pyGet, List.find?_cons]
  | cons a t ih =>
    unfold pyGet at h ih ⊢
    rw [List.find?_cons] at h
    rw [List.cons_append, List.find?_cons]
    cases hp : (a.1 == k) with
    | true => rw [hp] at h; simp at h
    | false =>
      rw [hp] at h
      exact ih h

theorem degreeInfo_ne_empty (edu d : String) (h : degreeInfo edu = some d) : d ≠ "" := by
  unfold degreeInfo at h
  have step : ∀ (pats : List (List String)),
      (pats.findSome? (fun alts =>
        match tryPattern alts edu.toList with
        | some x => if x = "" then none else some x
        | none => none)) = some d → d ≠ "" := by
    intro pats
    induction pats with
    | nil => intro hx; simp [List.findSome?] at hx
    | cons p ps ih =>
      intro hx
      rw [List.findSome?_cons] at hx
      cases htp : tryPattern p edu.toList with
      | none => rw [htp] at hx; exact ih hx
      | some x =>
        rw [htp] at hx
        dsimp only at hx
        by_cases hxe : x = ""
        · rw [if_pos hxe] at hx; exact ih hx
        · rw [if_neg hxe] at hx
          have hxd : x = d := by simpa using hx
          rw [← hxd]; exact hxe
  exact step _ h

theorem formatBlock_bounds (t : String) (e : NlpEnv) :
    0 ≤ (formatBlock t e).1 ∧ (formatBlock t e).1 ≤ 20 := by
  unfold formatBlock
  constructor <;> dsimp only <;> split_ifs <;> decide

theorem contentBlock_bounds (t : String) (e : NlpEnv) :
    0 ≤ (contentBlock t e).1 ∧ (contentBlock t e).1 ≤ 30 := by
  unfold contentBlock
  constructor <;> dsimp only <;> split_ifs <;> decide

theorem skillsBlock_bounds (t : String) :
    0 ≤ (skillsBlock t).1 ∧ (skillsBlock t).1 ≤ 25 := by
  unfold skillsBlock
  constructor <;> dsimp only <;> split_ifs <;> decide

theorem keywordBlock_bounds (text : String) (jd : Option String) (env : NlpEnv)
    (h : ∀ s, env.simResult = some s → 0 ≤ s ∧ s ≤ 1) :
    0 ≤ (keywordBlock text jd env).1 ∧ (keywordBlock text jd env).1 ≤ 25 := by
  unfold keywordBlock
  cases jd with
  | none => exact ⟨le_max_left 0 25, max_le (by norm_num) le_rfl⟩
  | some j =>
    dsimp only
    by_cases hj : j = ""
    · rw [if_pos hj]
      exact ⟨le_max_left 0 25, max_le (by norm_num) le_rfl⟩
    · rw [if_neg hj]
      cases hs : env.simResult with
      | none => exact ⟨le_max_left 0 15, max_le (by norm_num) (by norm_num)⟩
      | some s =>
        obtain ⟨h0, h1⟩ := h s hs
        dsimp only
        refine ⟨le_max_left 0 _, ?_⟩
        refine max_le (by norm_num) ?_
        have hq0 : (0 : ℚ) ≤ s * 25 := by positivity
        have hpy : pyInt (s * 25) = ⌊s * 25⌋ := by
          unfold pyInt; rw [if_neg (not_lt.mpr hq0)]
        rw [hpy]
        have hle : s * 25 ≤ ((25 : ℤ) : ℚ) := by push_cast; nlinarith
        calc ⌊s * 25⌋ ≤ ⌊((25 : ℤ) : ℚ)⌋ := Int.floor_le_floor hle
          _ = 25 := Int.floor_intCast 25

theorem isPrefixOf_append_self (a b : List Char) : a.isPrefixOf (a ++ b) = true := by
  rw [List.isPrefixOf_iff_prefix]
  exact List.prefix_append a b

theorem kwHead_kwWarnMsg (e : String) : kwHead (kwWarnMsg e) = true := by
  unfold kwHead kwWarnMsg
  have h : ("Error in keyword analysis: " ++ e).toList
      = "Error in keyword analysis: ".toList ++ e.toList := String.data_append _ _
  rw [h]
  exact isPrefixOf_append_self _ _

theorem kwHead_formatFb (t : String) (e : NlpEnv) :
    ∀ s ∈ (formatBlock t e).2, kwHead s = false := by
  intro s hs
  unfold formatBlock at hs
  dsimp only at hs
  rcases List.mem_append.mp hs with h12 | h3
  · rcases List.mem_append.mp h12 with h1 | h2
    · split at h1
      · have hx : s = "Missing key sections - add more sections to your resume" := by simpa using h1
        rw [hx]; rfl
      · simp at h1
    · split at h2
      · have hx : s = "Content is too brief - add more detailed descriptions" := by simpa using h2
        rw [hx]; rfl
      · simp at h2
  · split at h3
    · have hx : s = "Use clear section headers to organize your resume" := by simpa using h3
      rw [hx]; rfl
    · simp at h3

theorem kwHead_contentFb (t : String) (e : NlpEnv) :
    ∀ s ∈ (contentBlock t e).2, kwHead s = false := by
  intro s hs
  unfold contentBlock at hs
  dsimp only at hs
  rcases List.mem_append.mp hs with h12 | h3
  · rcases List.mem_append.mp h12 with h1 | h2
    · split at h1
      · have hx : s = "Resume is too short - aim for 300-700 words" := by simpa using h1
        rw [hx]; rfl
      · split at h1
        · have hx : s = "Resume might be too long - consider condensing" := by simpa using h1
          rw [hx]; rfl
        · simp at h1
    · split at h2
      · have hx : s = "Use more action verbs to describe your experiences" := by simpa using h2
        rw [hx]; rfl
      · simp at h2
  · split at h3
    · have hx : s = "Add more quantifiable achievements and metrics" := by simpa using h3
      rw [hx]; rfl
    · simp at h3

theorem kwHead_skillsFb (t : String) :
    ∀ s ∈ (skillsBlock t).2, kwHead s = false := by
  intro s hs
  unfold skillsBlock at hs
  dsimp only at hs
  rcases List.mem_append.mp hs with h1 | h2
  · split at h1
    · have hx : s = "Add more technical skills relevant to your field" := by simpa using h1
      rw [hx]; rfl
    · split at h1
      · have hx : s = "Consider adding more diverse technical skills" := by simpa using h1
        rw [hx]; rfl
      · simp at h1
  · split at h2
    · simp at h2
    · have hx : s = "Add core technical skills (programming languages/frameworks)" := by
        simpa using h2
      rw [hx]; rfl

theorem keywordBlock_noSim (text j : String) (env : NlpEnv)
    (hj : j ≠ "") (hs : env.simResult = none) :
    keywordBlock text (some j) env = (15, [], [kwWarnMsg env.simErrMsg]) := by
  unfold keywordBlock
  dsimp only
  rw [if_neg hj, hs]
  rfl

theorem calc_fb_kwHead (text j : String) (env : NlpEnv)
    (hj : j ≠ "") (hs : env.simResult = none) :
    ∀ s ∈ (calculate_ats_score text (some j) env).1.feedback, kwHead s = false := by
  intro s hsf
  have hcore : ∀ s', s' ∈ (formatBlock text env).2 ++ (contentBlock text env).2
      ++ (skillsBlock text).2 → kwHead s' = false := by
    intro s' h'
    rcases List.mem_append.mp h' with h12 | h3
    · rcases List.mem_append.mp h12 with h1 | h2
      · exact kwHead_formatFb text env s' h1
      · exact kwHead_contentFb text env s' h2
    · exact kwHead_skillsFb text s' h3
  unfold calculate_ats_score at hsf
  dsimp only at hsf
  rw [keywordBlock_noSim text j env hj hs] at hsf
  simp only [List.append_nil] at hsf
  split at hsf
  · rcases List.mem_append.mp hsf with h | h
    · split at h
      · rcases List.mem_append.mp h with h' | h'
        · exact hcore s h'
        · have hx : s = "Consider professional resume review for major improvements" := by
            simpa using h'
          rw [hx]; rfl
      · exact hcore s h
    · have hx : s = "Significant improvements needed in content and formatting" := by
        simpa using h
      rw [hx]; rfl
  · split at hsf
    · rcases List.mem_append.mp hsf with h | h
      · exact hcore s h
      · have hx : s = "Consider professional resume review for major improvements" := by
          simpa using h
        rw [hx]; rfl
    · exact hcore s hsf

/-- C1: for every text and optional job description, under the library
guarantee that a successfully computed TF-IDF cosine similarity lies in
[0,1], the record returned by `calculate_ats_score` has `total_score`
exactly equal to the sum of the four sub-scores, and each sub-score lies
within its documented bound: format in [0,20], content in [0,30], skills
in [0,25], keyword in [0,25]. -/
theorem c1_score_bounds (text : String) (jd : Option String) (env : NlpEnv)
    (h : ∀ s, env.simResult = some s → 0 ≤ s ∧ s ≤ 1) :
    (calculate_ats_score text jd env).1.total_score
      = (calculate_ats_score text jd env).1.format_score
        + (calculate_ats_score text jd env).1.content_score
        + (calculate_ats_score text jd env).1.skills_score
        + (calculate_ats_score text jd env).1.keyword_score
    ∧ 0 ≤ (calculate_ats_score text jd env).1.format_score
    ∧ (calculate_ats_score text jd env).1.format_score ≤ 20
    ∧ 0 ≤ (calculate_ats_score text jd env).1.content_score
    ∧ (calculate_ats_score text jd env).1.content_score ≤ 30
    ∧ 0 ≤ (calculate_ats_score text jd env).1.skills_score
    ∧ (calculate_ats_score text jd env).1.skills_score ≤ 25
    ∧ 0 ≤ (calculate_ats_score text jd env).1.keyword_score
    ∧ (calculate_ats_score text jd env).1.keyword_score ≤ 25 :=
  ⟨rfl,
   (formatBlock_bounds text env).1, (formatBlock_bounds text env).2,
   (contentBlock_bounds text env).1, (contentBlock_bounds text env).2,
   (skillsBlock_bounds text).1, (skillsBlock_bounds text).2,
   (keywordBlock_bounds text jd env h).1, (keywordBlock_bounds text jd env h).2⟩

/-- Witness for C1 at the one-word text with no job description. -/
theorem c1_score_bounds_witness :
    (∀ s : ℚ, envNone.simResult = some s → 0 ≤ s ∧ s ≤ 1)
    ∧ ((calculate_ats_score "x" none envNone).1.total_score
        = (calculate_ats_score "x" none envNone).1.format_score
          + (calculate_ats_score "x" none envNone).1.content_score
          + (calculate_ats_score "x" none envNone).1.skills_score
          + (calculate_ats_score "x" none envNone).1.keyword_score
      ∧ 0 ≤ (calculate_ats_score "x" none envNone).1.format_score
      ∧ (calculate_ats_score "x" none envNone).1.format_score ≤ 20
      ∧ 0 ≤ (calculate_ats_score "x" none envNone).1.content_score
      ∧ (calculate_ats_score "x" none envNone).1.content_score ≤ 30
      ∧ 0 ≤ (calculate_ats_score "x" none envNone).1.skills_score
      ∧ (calculate_ats_score "x" none envNone).1.skills_score ≤ 25
      ∧ 0 ≤ (calculate_ats_score "x" none envNone).1.keyword_score
      ∧ (calculate_ats_score "x" none envNone).1.keyword_score ≤ 25) :=
  ⟨fun s hs => by simp [envNone] at hs,
   c1_score_bounds "x" none envNone (fun s hs => by simp [envNone] at hs)⟩

/-- C2 counterexample: in the text with lines skills and python, the line
skills is non-blank yet is assigned to no section's content (it becomes
the section key), refuting that every non-blank line lands in exactly one
section's content. -/
theorem c2_coverage_cex :
    "skills" ∈ pySplitChar "skills\npython" '\n'
    ∧ pyStrip "skills" ≠ ""
    ∧ (segOnly "skills\npython").all (fun kv => !containsSub kv.2 "skills") = true :=
  ⟨by decide, by decide, by decide⟩

/-- C2 amended: provided the flushed section keys are pairwise distinct,
every stripped non-blank line that is not a header line appears exactly
once, in input order, in the concatenation of the sections' contents
(no drops, no duplication); header lines become section keys, not content. -/
theorem c2_coverage_amended (text : String)
    (h : (flushKeys (pySplitChar text '\n') "unknown" false).Nodup) :
    segOnly text = mapJoin (segBlocks text)
    ∧ contentsOf (segBlocks text) = cleanLines (pySplitChar text '\n') := by
  constructor
  · exact segLoop_eq_mapJoin (pySplitChar text '\n') "unknown" [] []
  · have hcov := segLoopB_coverage (pySplitChar text '\n') "unknown" [] [] h
      (fun k hk => rfl)
    simpa [contentsOf] using hcov

/-- Witness for C2 on a four-line resume with two distinct headers. -/
theorem c2_coverage_amended_witness :
    (flushKeys (pySplitChar "summary\nalpha\nskills\npython" '\n') "unknown" false).Nodup
    ∧ (segOnly "summary\nalpha\nskills\npython"
         = mapJoin (segBlocks "summary\nalpha\nskills\npython")
       ∧ contentsOf (segBlocks "summary\nalpha\nskills\npython")
         = cleanLines (pySplitChar "summary\nalpha\nskills\npython" '\n')) :=
  ⟨by decide, c2_coverage_amended "summary\nalpha\nskills\npython" (by decide)⟩

/-- C3 counterexample: the section key education history contains the
substring education and its content matches a degree pattern, yet the
code checks only for the exact key education, so no degree key is added. -/
theorem c3_degree_cex :
    containsSub "education history" "education" = true
    ∧ pyGet (extract_sections "education history\nbs in computer science") "education history"
        = some "bs in computer science"
    ∧ degreeInfo (pyLower "bs in computer science") = some "bs in computer science"
    ∧ pyGet (extract_sections "education history\nbs in computer science") "degree" = none :=
  ⟨by decide, by decide, by decide, by decide⟩

/-- C3 amended: degree mining runs exactly when the map has the exact key
education; it searches the lower-cased content with the patterns in fixed
priority order; a first match appends the trimmed period-delimited span
(never empty) under the fresh key degree, and no match adds no key. -/
theorem c3_degree_amended (text : String) :
    (pyGet (segOnly text) "education" = none → extract_sections text = segOnly text)
    ∧ (∀ edu, pyGet (segOnly text) "education" = some edu →
        degreeInfo (pyLower edu) = none →
        extract_sections text = segOnly text
        ∧ pyGet (extract_sections text) "degree" = none)
    ∧ (∀ edu d, pyGet (segOnly text) "education" = some edu →
        degreeInfo (pyLower edu) = some d →
        extract_sections text = segOnly text ++ [("degree", d)]
        ∧ pyGet (extract_sections text) "degree" = some d ∧ d ≠ "") := by
  refine ⟨?_, ?_, ?_⟩
  · intro h
    unfold extract_sections
    rw [h]
  · intro edu h1 h2
    have he : extract_sections text = segOnly text := by
      unfold extract_sections
      rw [h1]
      dsimp only
      rw [h2]
    exact ⟨he, by rw [he]; exact segOnly_no_degree text⟩
  · intro edu d h1 h2
    have hnd := segOnly_no_degree text
    have hin : dictInsert "degree" d (segOnly text) = segOnly text ++ [("degree", d)] :=
      dictInsert_of_hasKey_eq_false _ _ _ (pyGet_none_hasKey _ _ hnd)
    have he : extract_sections text = segOnly text ++ [("degree", d)] := by
      unfold extract_sections
      rw [h1]
      dsimp only
      rw [h2]
      dsimp only
      exact hin
    refine ⟨he, ?_, degreeInfo_ne_empty _ _ h2⟩
    rw [he]
    exact pyGet_append_self _ _ _ hnd

/-- Witness for C3 on a resume whose education section matches a degree
abbreviation. -/
theorem c3_degree_amended_witness :
    pyGet (segOnly "education\nbs in cs") "education" = some "bs in cs"
    ∧ degreeInfo (pyLower "bs in cs") = some "bs in cs"
    ∧ extract_sections "education\nbs in cs"
        = segOnly "education\nbs in cs" ++ [("degree", "bs in cs")] :=
  ⟨by decide, by decide,
   ((c3_degree_amended "education\nbs in cs").2.2 "bs in cs" "bs in cs"
     (by decide) (by decide)).1⟩

/-- C4 counterexample: when the pdfplumber strategy raises, the single
try/except returns the empty string at once, even though the PyPDF2
strategy would have produced text — the second strategy is not attempted
on a raise, only on empty extracted text. -/
theorem c4_pdf_fallback_cex :
    (extract_text_from_pdf (Except.error "boom") (Except.ok "hello")).1 = ""
    ∧ (extract_text_from_pdf (Except.error "boom") (Except.ok "hello")).1 ≠ "hello" :=
  ⟨rfl, by decide⟩

/-- C4 amended: the PyPDF2 fallback is attempted exactly when pdfplumber
returns whitespace-only text without raising; when pdfplumber raises, the
function immediately returns the empty string with an error message, and
it never raises itself (both strategies failing also yields the empty
string). -/
theorem c4_pdf_fallback_amended (p2 : Except String String) (t e : String) :
    extract_text_from_pdf (Except.error e) p2 = ("", [pdfErrPre ++ e])
    ∧ (pyStrip t = "" → extract_text_from_pdf (Except.ok t) p2
        = (match p2 with
           | Except.error e2 => ("", [pdfErrPre ++ e2])
           | Except.ok t2 => (t2, [])))
    ∧ (pyStrip t ≠ "" → extract_text_from_pdf (Except.ok t) p2 = (t, [])) := by
  refine ⟨rfl, ?_, ?_⟩
  · intro h
    unfold extract_text_from_pdf
    dsimp only
    rw [if_pos h]
  · intro h
    unfold extract_text_from_pdf
    dsimp only
    rw [if_neg h]

/-- Witness for C4: empty pdfplumber output falls back to PyPDF2. -/
theorem c4_pdf_fallback_amended_witness :
    extract_text_from_pdf (Except.ok "") (Except.ok "hi") = ("hi", []) :=
  (c4_pdf_fallback_amended (Except.ok "hi") "" "x").2.1 rfl

theorem isPrefixOf_append_of_isPrefixOf (a b c : List Char) (h : a.isPrefixOf b = true) :
    a.isPrefixOf (b ++ c) = true := by
  rw [List.isPrefixOf_iff_prefix] at h ⊢
  exact h.trans (List.prefix_append b c)

/-- C5: a file whose lower-cased extension is outside pdf, docx and doc
fails with the fixed unsupported-format message and empty output, with
neither extractor consulted (the result is the same constant for every
extractor outcome), and that message is distinct from every extraction
failure message, which all start with the word Error. -/
theorem c5_unsupported (suffix : String) (p1 p2 d : Except String String)
    (h1 : pyLower suffix ≠ ".pdf") (h2 : pyLower suffix ≠ ".docx")
    (h3 : pyLower suffix ≠ ".doc") :
    extract_text suffix p1 p2 d = ("", [unsupportedMsg])
    ∧ errDiscr unsupportedMsg = false
    ∧ ∀ e, errDiscr (pdfErrPre ++ e) = true ∧ errDiscr (docxErrPre ++ e) = true
        ∧ unsupportedMsg ≠ pdfErrPre ++ e ∧ unsupportedMsg ≠ docxErrPre ++ e := by
  refine ⟨?_, rfl, ?_⟩
  · unfold extract_text
    rw [if_neg h1, if_neg (not_or.mpr ⟨h2, h3⟩)]
  · intro e
    have hp : errDiscr (pdfErrPre ++ e) = true := by
      unfold errDiscr
      rw [show (pdfErrPre ++ e).toList = pdfErrPre.toList ++ e.toList from
        String.data_append _ _]
      exact isPrefixOf_append_of_isPrefixOf _ _ _ (by decide)
    have hd : errDiscr (docxErrPre ++ e) = true := by
      unfold errDiscr
      rw [show (docxErrPre ++ e).toList = docxErrPre.toList ++ e.toList from
        String.data_append _ _]
      exact isPrefixOf_append_of_isPrefixOf _ _ _ (by decide)
    refine ⟨hp, hd, ?_, ?_⟩
    · intro hEq
      have hc := congrArg errDiscr hEq
      rw [hp, show errDiscr unsupportedMsg = false from rfl] at hc
      exact Bool.noConfusion hc
    · intro hEq
      have hc := congrArg errDiscr hEq
      rw [hd, show errDiscr unsupportedMsg = false from rfl] at hc
      exact Bool.noConfusion hc

/-- Witness for C5 on a txt extension. -/
theorem c5_unsupported_witness :
    extract_text ".txt" (Except.ok "a") (Except.ok "b") (Except.ok "c")
      = ("", [unsupportedMsg]) :=
  (c5_unsupported ".txt" (Except.ok "a") (Except.ok "b") (Except.ok "c")
    (by decide) (by decide) (by decide)).1

/-- C6 counterexample: with a job description present and a raising
similarity computation, the warning line goes to the Streamlit warning
channel, not to the record's feedback; the claim that it is appended to
the feedback sequence is false. -/
theorem c6_warning_cex :
    (calculate_ats_score "x" (some "y") envNone).1.keyword_score = 15
    ∧ (calculate_ats_score "x" (some "y") envNone).2 = [kwWarnMsg "empty vocabulary"]
    ∧ kwWarnMsg "empty vocabulary" ∉ (calculate_ats_score "x" (some "y") envNone).1.feedback :=
  ⟨by decide, by decide, by decide⟩

/-- C6 amended: when the similarity computation raises, the scorer sets
keyword_score to the default 15, emits the warning on the Streamlit
warning channel (not in the record's feedback sequence), and still
returns a complete record whose total is the sum of the sub-scores. -/
theorem c6_warning_amended (text j : String) (env : NlpEnv)
    (hj : j ≠ "") (hs : env.simResult = none) :
    (calculate_ats_score text (some j) env).1.keyword_score = 15
    ∧ (calculate_ats_score text (some j) env).2 = [kwWarnMsg env.simErrMsg]
    ∧ kwWarnMsg env.simErrMsg ∉ (calculate_ats_score text (some j) env).1.feedback
    ∧ (calculate_ats_score text (some j) env).1.total_score
        = (calculate_ats_score text (some j) env).1.format_score
          + (calculate_ats_score text (some j) env).1.content_score
          + (calculate_ats_score text (some j) env).1.skills_score + 15 := by
  have hkb := keywordBlock_noSim text j env hj hs
  refine ⟨?_, ?_, ?_, ?_⟩
  · show (keywordBlock text (some j) env).1 = 15
    rw [hkb]
  · show (keywordBlock text (some j) env).2.2 = [kwWarnMsg env.simErrMsg]
    rw [hkb]
  · intro hmem
    have hfalse := calc_fb_kwHead text j env hj hs _ hmem
    rw [kwHead_kwWarnMsg env.simErrMsg] at hfalse
    exact Bool.noConfusion hfalse
  · show (formatBlock text env).1 + (contentBlock text env).1 + (skillsBlock text).1
        + (keywordBlock text (some j) env).1
      = (formatBlock text env).1 + (contentBlock text env).1 + (skillsBlock text).1 + 15
    rw [hkb]

/-- Witness for C6 at a concrete raising oracle. -/
theorem c6_warning_amended_witness :
    ("y" ≠ "" ∧ envNone.simResult = none)
    ∧ ((calculate_ats_score "a" (some "y") envNone).1.keyword_score = 15
       ∧ (calculate_ats_score "a" (some "y") envNone).2 = [kwWarnMsg envNone.simErrMsg]
       ∧ kwWarnMsg envNone.simErrMsg ∉ (calculate_ats_score "a" (some "y") envNone).1.feedback
       ∧ (calculate_ats_score "a" (some "y") envNone).1.total_score
           = (calculate_ats_score "a" (some "y") envNone).1.format_score
             + (calculate_ats_score "a" (some "y") envNone).1.content_score
             + (calculate_ats_score "a" (some "y") envNone).1.skills_score + 15) :=
  ⟨⟨by decide, rfl⟩, c6_warning_amended "a" "y" envNone (by decide) rfl⟩

/-- C7: the aggregator returns null exactly when the extracted text is
empty (no score record is built), and otherwise returns the record of
full text, sections, flat skills, word count, and the scorer invoked
with no job description. -/
theorem c7_parse_null (suffix : String) (p1 p2 d : Except String String) (env : NlpEnv) :
    (get_parsed_data suffix p1 p2 d env = none ↔ (extract_text suffix p1 p2 d).1 = "")
    ∧ ∀ r, get_parsed_data suffix p1 p2 d env = some r →
        r.full_text = (extract_text suffix p1 p2 d).1
        ∧ r.sections = extract_sections r.full_text
        ∧ r.skills = extract_skills env
        ∧ r.word_count = wordCount r.full_text
        ∧ r.scores = (calculate_ats_score r.full_text none env).1 := by
  constructor
  · unfold get_parsed_data
    by_cases h : (extract_text suffix p1 p2 d).1 = "" <;> simp [h]
  · intro r hr
    unfold get_parsed_data at hr
    by_cases h : (extract_text suffix p1 p2 d).1 = ""
    · rw [if_pos h] at hr
      exact absurd hr (by simp)
    · rw [if_neg h] at hr
      have hrec := Option.some.inj hr
      rw [← hrec]
      exact ⟨rfl, rfl, rfl, rfl, rfl⟩

/-- Witness for C7: a txt upload parses to null, and a pdf upload with
one word of text yields the full record scored without job description. -/
theorem c7_parse_null_witness :
    get_parsed_data ".txt" (Except.ok "a") (Except.ok "a") (Except.ok "a") envNone = none
    ∧ (sampleParsed.full_text = "x"
       ∧ sampleParsed.sections = extract_sections "x"
       ∧ sampleParsed.skills = extract_skills envNone
       ∧ sampleParsed.word_count = wordCount "x"
       ∧ sampleParsed.scores = (calculate_ats_score "x" none envNone).1) :=
  ⟨(c7_parse_null ".txt" (Except.ok "a") (Except.ok "a") (Except.ok "a") envNone).1.mpr
     (by decide),
   (c7_parse_null ".pdf" (Except.ok "x") (Except.ok "") (Except.ok "") envNone).2
     sampleParsed (by decide)⟩

/-- C8: no lexicon term occurs in two categories of the skills dictionary,
and consequently, for every input text, no skill string appears in more
than one category of the categorized skill detection used for scoring. -/
theorem c8_skill_disjoint :
    SKILLS_DB.Pairwise (fun a b => ∀ s, s ∈ a.2 → s ∉ b.2)
    ∧ ∀ text, (skillsByCategory text).Pairwise (fun a b => ∀ s, s ∈ a.2 → s ∉ b.2) := by
  have hdb : SKILLS_DB.Pairwise (fun a b => ∀ s, s ∈ a.2 → s ∉ b.2) := by decide
  refine ⟨hdb, fun text => ?_⟩
  unfold skillsByCategory
  rw [List.pairwise_map]
  exact hdb.imp (fun hab s hsm hsb =>
    hab s (List.mem_filter.mp hsm).1 (List.mem_filter.mp hsb).1)

/-- C9: scoring is a pure function of the text, the job description and
the library oracle; two calls on equal arguments return records with equal
sub-scores, equal feedback in the same order, equal detected skills, and
are equal outright (no hidden randomness or time-dependent state). -/
theorem c9_deterministic (t₁ t₂ : String) (j₁ j₂ : Option String) (e₁ e₂ : NlpEnv)
    (ht : t₁ = t₂) (hj : j₁ = j₂) (he : e₁ = e₂) :
    (calculate_ats_score t₁ j₁ e₁).1.format_score
      = (calculate_ats_score t₂ j₂ e₂).1.format_score
    ∧ (calculate_ats_score t₁ j₁ e₁).1.content_score
      = (calculate_ats_score t₂ j₂ e₂).1.content_score
    ∧ (calculate_ats_score t₁ j₁ e₁).1.skills_score
      = (calculate_ats_score t₂ j₂ e₂).1.skills_score
    ∧ (calculate_ats_score t₁ j₁ e₁).1.keyword_score
      = (calculate_ats_score t₂ j₂ e₂).1.keyword_score
    ∧ (calculate_ats_score t₁ j₁ e₁).1.total_score
      = (calculate_ats_score t₂ j₂ e₂).1.total_score
    ∧ (calculate_ats_score t₁ j₁ e₁).1.feedback
      = (calculate_ats_score t₂ j₂ e₂).1.feedback
    ∧ (calculate_ats_score t₁ j₁ e₁).1.detected_skills
      = (calculate_ats_score t₂ j₂ e₂).1.detected_skills
    ∧ calculate_ats_score t₁ j₁ e₁ = calculate_ats_score t₂ j₂ e₂ := by
  subst ht
  subst hj
  subst he
  exact ⟨rfl, rfl, rfl, rfl, rfl, rfl, rfl, rfl⟩

/-- Witness for C9 on a concrete repeated call. -/
theorem c9_deterministic_witness :
    (calculate_ats_score "a" none envNone).1.format_score
      = (calculate_ats_score "a" none envNone).1.format_score
    ∧ (calculate_ats_score "a" none envNone).1.content_score
      = (calculate_ats_score "a" none envNone).1.content_score
    ∧ (calculate_ats_score "a" none envNone).1.skills_score
      = (calculate_ats_score "a" none envNone).1.skills_score
    ∧ (calculate_ats_score "a" none envNone).1.keyword_score
      = (calculate_ats_score "a" none envNone).1.keyword_score
    ∧ (calculate_ats_score "a" none envNone).1.total_score
      = (calculate_ats_score "a" none envNone).1.total_score
    ∧ (calculate_ats_score "a" none envNone).1.feedback
      = (calculate_ats_score "a" none envNone).1.feedback
    ∧ (calculate_ats_score "a" none envNone).1.detected_skills
      = (calculate_ats_score "a" none envNone).1.detected_skills
    ∧ calculate_ats_score "a" none envNone = calculate_ats_score "a" none envNone :=
  c9_deterministic "a" "a" none none envNone envNone rfl rfl rfl

/-- C10: the score record carries a fifth sub-score field relevance_score
that is initialized to 0 and never modified by any scoring rule. -/
theorem c10_relevance_zero (text : String) (jd : Option String) (env : NlpEnv) :
    (calculate_ats_score text jd env).1.relevance_score = 0 := rfl
